import Mathlib

/-!
# Verification of the salary_system_v3 export scripts

Shallow embedding of the tabular post-processing logic of the payroll export
scripts (`export_payroll_details.py`, `export_contribution_base.py`,
`export_employee_categories.py`, `backend/analyze_contribution_bases.py`):
zero-column pruning, field classification, cell normalization for CSV
emission, period resolution, and the resource (connection/cursor) handling
of each script's control flow.
-/

/-- A cell value as delivered by the database driver: SQL NULL, a numeric
(`Decimal`) value modelled as a rational, a text value, a date-only value,
or a timestamp (`datetime`). -/
inductive Value where
  | null
  | num (q : ℚ)
  | str (s : String)
  | date (y m d : Nat)
  | timestamp (y m d hh mi ss : Nat)
deriving DecidableEq, Repr

/-- One entry of `cursor.description`: column name and PostgreSQL type OID.
The scripts test `desc[1] == 1700` to recognize numeric columns. -/
structure ColDesc where
  name : String
  typeOid : Nat
deriving DecidableEq, Repr

/-- A `DictCursor` row: an association list from column name to value.
Invariant (from the data model): each row carries exactly the columns of the
result set's description, with unique names. -/
abbrev Row := List (String × Value)

/-- `row[field]` on a `DictCursor` row. Under the row invariant the lookup
always succeeds; `null` is returned for a missing key only to keep the
function total. -/
def getField (r : Row) (f : String) : Value :=
  match r.find? (fun p => p.1 == f) with
  | some p => p.2
  | none => Value.null

/-- Whether the first character list is an initial segment of the second. -/
def charsLeadingMatch : List Char → List Char → Bool
  | [], _ => true
  | _ :: _, [] => false
  | a :: as, b :: bs => a == b && charsLeadingMatch as bs

/-- Whether `pat` occurs as a contiguous run inside the second list. -/
def charsContainSub (pat : List Char) : List Char → Bool
  | [] => charsLeadingMatch pat []
  | c :: cs => charsLeadingMatch pat (c :: cs) || charsContainSub pat cs

/-- Python's substring test `pat in s`, on the character sequences of the
two strings. -/
def strContains (s pat : String) : Bool :=
  charsContainSub pat.data s.data

/-- `'%02d'`-style zero padding used by `strftime`. -/
def pad2 (n : Nat) : String :=
  if n < 10 then "0" ++ toString n else toString n

/-- `'%04d'`-style zero padding for the year. -/
def pad4 (n : Nat) : String :=
  if n < 10 then "000" ++ toString n
  else if n < 100 then "00" ++ toString n
  else if n < 1000 then "0" ++ toString n
  else toString n

/-- `strftime('%Y-%m-%d')`, also the `str()` form of a Python `date`. -/
def formatDate (y m d : Nat) : String :=
  pad4 y ++ "-" ++ pad2 m ++ "-" ++ pad2 d

/-- `strftime('%Y-%m-%d %H:%M:%S')`. -/
def formatDateTime (y m d hh mi ss : Nat) : String :=
  formatDate y m d ++ " " ++ pad2 hh ++ ":" ++ pad2 mi ++ ":" ++ pad2 ss

/-! ## Zero-column pruning (`export_payroll_details.export_payroll_details`) -/

/-- The inner loop of the pruning pass: `row[field] is not None and
float(row[field]) != 0` for some row. In a numeric column the value is null
or numeric (row invariant), so `float` conversion is just the rational. -/
def floatNeZero : Value → Bool
  | Value.num q => decide (q ≠ 0)
  | _ => false

/-- `has_non_zero` for one field across all fetched rows. -/
def has_non_zero (rows : List Row) (field : String) : Bool :=
  rows.any (fun r => floatNeZero (getField r field))

/-- The zero-column pruning pass of `export_payroll_details` (lines 93-115):
with `include_zero_fields` the field list is returned unchanged; otherwise
every numeric-typed (OID 1700) field whose values are all null/zero is
discarded from the field list, preserving order. -/
def pruneFields (desc : List ColDesc) (rows : List Row)
    (include_zero_fields : Bool) : List String :=
  let fieldnames := desc.map ColDesc.name
  if include_zero_fields then fieldnames
  else
    let numeric_fields := (desc.filter (fun d => d.typeOid == 1700)).map ColDesc.name
    let dropped := numeric_fields.filter (fun f => !(has_non_zero rows f))
    fieldnames.filter (fun f => !(dropped.contains f))

/-! ## Cell normalization for CSV emission -/

/-- The column names that `export_payroll_details` always formats with the
full timestamp pattern. -/
def timestampFields : List String := ["计算时间", "更新时间", "薪资运行日期", "审计时间"]

/-- Cell emission in `export_payroll_details` (lines 125-137): the explicit
normalization (a `datetime` is formatted with the timestamp pattern exactly
when the field is one of `timestampFields`, date-only otherwise; `None`
becomes the empty string) followed by the csv writer's `str()` conversion of
the remaining raw values (a `date` prints in ISO form). -/
def emitCellPD (field : String) (v : Value) : String :=
  match v with
  | Value.timestamp y m d hh mi ss =>
      if timestampFields.contains field then formatDateTime y m d hh mi ss
      else formatDate y m d
  | Value.null => ""
  | Value.date y m d => formatDate y m d
  | Value.num q => toString q
  | Value.str s => s

/-- Cell emission in `export_contribution_base` (lines 146-153) and
`export_employee_categories`: every `datetime` is formatted date-only;
`None` is written by the csv module as the empty string; a `date` prints in
ISO form. -/
def emitCellCB (v : Value) : String :=
  match v with
  | Value.timestamp y m d _ _ _ => formatDate y m d
  | Value.null => ""
  | Value.date y m d => formatDate y m d
  | Value.num q => toString q
  | Value.str s => s

/-! ## The exporter bodies -/

/-- `export_payroll_details(conn, period_info, output_file,
include_zero_fields)` after the query: if the query returned no rows the
function prints a message and returns `False` without opening the output
file (`none`); otherwise the pruned field list is computed and the CSV file
(header row followed by one emitted line per fetched row) is written. -/
def export_payroll_details (desc : List ColDesc) (rows : List Row)
    (include_zero_fields : Bool) : Option (List (List String)) :=
  if rows.isEmpty then none
  else
    let fieldnames := pruneFields desc rows include_zero_fields
    some (fieldnames :: rows.map (fun r => fieldnames.map (fun f => emitCellPD f (getField r f))))

/-- `export_contribution_base(conn, period_info, output_file)` after the
query: no pruning, all columns are written; empty result sets return `False`
before the file is opened. -/
def export_contribution_base (desc : List ColDesc) (rows : List Row) :
    Option (List (List String)) :=
  if rows.isEmpty then none
  else
    let fieldnames := desc.map ColDesc.name
    some (fieldnames :: rows.map (fun r => fieldnames.map (fun f => emitCellCB (getField r f))))

/-! ## Field classification (`print_field_analysis`, lines 222-241) -/

/-- The exact-match identity (basic-information) field set. -/
def basicFieldsList : List String :=
  ["薪资条目ID", "员工ID", "薪资期间ID", "薪资运行ID", "员工编号", "姓名", "身份证号",
   "部门名称", "职位名称", "人员类别", "薪资期间名称", "薪资期间开始日期", "薪资期间结束日期",
   "薪资发放日期", "入职日期", "员工状态"]

/-- The exact-match earning field set. -/
def earningExactList : List String :=
  ["应发合计", "基本工资", "岗位工资", "级别工资", "薪级工资", "绩效工资",
   "奖励性绩效工资", "基础性绩效工资", "津贴", "补助", "各种津补贴"]

/-- The exact-match deduction field set. -/
def deductionExactList : List String :=
  ["扣除合计", "个人所得税", "养老保险个人应缴金额", "医疗保险个人缴纳金额",
   "失业保险个人应缴金额", "职业年金个人应缴费额", "个人缴住房公积金"]

/-- Substring keywords marking a field as an earning item. -/
def earningKeywords : List String := ["工资", "津贴", "补贴", "奖", "补发", "绩效"]

/-- Substring keywords excluding a keyword-matched earning field. -/
def exclusionKeywords : List String := ["扣", "个人", "单位"]

/-- Substring keywords marking a field as a deduction item. -/
def deductionKeywords : List String := ["个人", "扣", "税"]

/-- The four classification buckets of `print_field_analysis`. -/
inductive FieldClass where
  | identity
  | earning
  | deduction
  | other
deriving DecidableEq, Repr

/-- The classification of one field name, translated from the `if/elif`
chain of `print_field_analysis`. The result is the bucket list the name is
appended to; `none` when the name is appended to no list (the
earning-keyword branch whose inner guard fails has no `else`). -/
def classifyField (field : String) : Option FieldClass :=
  if basicFieldsList.contains field then some FieldClass.identity
  else if earningExactList.contains field then some FieldClass.earning
  else if deductionExactList.contains field then some FieldClass.deduction
  else if earningKeywords.any (fun kw => strContains field kw) then
    if !(strContains field "扣") && !(strContains field "个人") && !(strContains field "单位") then
      some FieldClass.earning
    else none
  else if deductionKeywords.any (fun kw => strContains field kw) then
    some FieldClass.deduction
  else some FieldClass.other

/-! ## Period resolution (`get_payroll_period_info`) -/

/-- A record of `payroll.payroll_periods` as selected by the lookup query.
`start_date` is a date under its natural linear order. -/
structure PeriodRec where
  id : Nat
  name : String
  start_date : Int
deriving DecidableEq, Repr

/-- `f"{period_str[:4]}年{period_str[5:7]}月"`: fixed slicing of the
validated `YYYY-MM` argument. -/
def periodNameOf (period_str : String) : String :=
  period_str.take 4 ++ "年" ++ (period_str.drop 5).take 2 ++ "月"

/-- `get_payroll_period_info(conn, period_str)`: the SQL query
`WHERE name LIKE '%…%' ORDER BY start_date DESC LIMIT 1` over the period
table, i.e. among the records whose name contains the sliced period name as
a substring, one with the latest `start_date` (ties resolved by the
database; modelled as first-in-table). `none` when no record matches, upon
which the function prints a message and returns `None`. -/
def get_payroll_period_info (table : List PeriodRec) (period_str : String) :
    Option PeriodRec :=
  (table.filter (fun r => strContains r.name (periodNameOf period_str))).argmax
    (fun r => r.start_date)

/-! ## The `main` driver of `export_payroll_details.py` (after argument
validation) -/

/-- Outcome of one run: the process exit code and the CSV contents written,
if any file was created. -/
structure RunResult where
  exitCode : Nat
  fileWritten : Option (List (List String))
deriving DecidableEq, Repr

/-- `main()` of `export_payroll_details.py` from the period lookup on
(lines 291-332): a failed lookup exits with code 1 and writes nothing;
`--stats-only` returns normally without exporting; otherwise the export
body runs and a `False` result makes `main` exit with code 1. `rowsOf`
gives the rows the detail query returns for the resolved period. -/
def mainAfterValidation (table : List PeriodRec) (period_str : String)
    (desc : List ColDesc) (rowsOf : PeriodRec → List Row)
    (statsOnly include_zero_fields : Bool) : RunResult :=
  match get_payroll_period_info table period_str with
  | none => ⟨1, none⟩
  | some p =>
    if statsOnly then ⟨0, none⟩
    else
      match export_payroll_details desc (rowsOf p) include_zero_fields with
      | none => ⟨1, none⟩
      | some file => ⟨0, some file⟩

/-! ## Resource (connection/cursor) handling

A small statement language capturing the control structures the scripts use
around database resources: primitive actions (any fallible one may raise),
sequencing, `sys.exit` (raises `SystemExit`), `try/finally`, `try/except`,
and `with conn.cursor()` blocks. Execution carries a failure-injection
counter: the n-th fallible primitive action raises. -/

/-- Primitive resource-relevant actions appearing in the scripts. -/
inductive PyAction where
  | connect
  | openCursor
  | query
  | writeFile
  | closeCursor
  | closeConn
deriving DecidableEq, Repr

/-- Which resources are currently open. -/
structure ResState where
  connOpen : Bool
  cursorOpen : Bool
deriving DecidableEq, Repr

/-- Effect of a primitive action on the resource state. -/
def applyPyAction (s : ResState) : PyAction → ResState
  | PyAction.connect => { s with connOpen := true }
  | PyAction.openCursor => { s with cursorOpen := true }
  | PyAction.closeCursor => { s with cursorOpen := false }
  | PyAction.closeConn => { s with connOpen := false }
  | PyAction.query => s
  | PyAction.writeFile => s

/-- Connecting, opening a cursor, running a query and writing a file can
raise; the `close` calls are treated as infallible. -/
def fallible : PyAction → Bool
  | PyAction.connect => true
  | PyAction.openCursor => true
  | PyAction.query => true
  | PyAction.writeFile => true
  | PyAction.closeCursor => false
  | PyAction.closeConn => false

/-- Statements of the control-flow language. -/
inductive Stmt where
  | act (a : PyAction)
  | skip
  | exitStmt
  | seq (s1 s2 : Stmt)
  | tryFinally (body fin : Stmt)
  | tryExcept (body handler : Stmt)
deriving DecidableEq, Repr

/-- How a statement ended: normally, with the remaining failure budget, or
with a propagating exception. -/
inductive Ctl where
  | ok (fuel : Option Nat)
  | raised
deriving DecidableEq, Repr

/-- Execution. The fuel is the number of fallible primitive actions that
still succeed before one raises (`none`: nothing raises). A `finally` block
and an `except` handler run with no further injected failures. -/
def execStmt : Stmt → ResState → Option Nat → ResState × Ctl
  | Stmt.skip, s, f => (s, Ctl.ok f)
  | Stmt.exitStmt, s, _ => (s, Ctl.raised)
  | Stmt.act a, s, f =>
      match f with
      | some 0 =>
          if fallible a then (s, Ctl.raised)
          else (applyPyAction s a, Ctl.ok (some 0))
      | some (n + 1) =>
          if fallible a then (applyPyAction s a, Ctl.ok (some n))
          else (applyPyAction s a, Ctl.ok (some (n + 1)))
      | none => (applyPyAction s a, Ctl.ok none)
  | Stmt.seq s1 s2, s, f =>
      match execStmt s1 s f with
      | (st, Ctl.ok f1) => execStmt s2 st f1
      | (st, Ctl.raised) => (st, Ctl.raised)
  | Stmt.tryFinally body fin, s, f =>
      match execStmt body s f with
      | (st, Ctl.ok f1) => execStmt fin st f1
      | (st, Ctl.raised) => ((execStmt fin st none).1, Ctl.raised)
  | Stmt.tryExcept body handler, s, f =>
      match execStmt body s f with
      | (st, Ctl.ok f1) => (st, Ctl.ok f1)
      | (st, Ctl.raised) => execStmt handler st none

/-- `with conn.cursor(...) as cursor: body` — acquire, then the body with a
guaranteed release. -/
def withCursor (body : Stmt) : Stmt :=
  Stmt.seq (Stmt.act PyAction.openCursor)
    (Stmt.tryFinally body (Stmt.act PyAction.closeCursor))

/-- `n` queries in sequence. -/
def seqQueries : Nat → Stmt
  | 0 => Stmt.skip
  | n + 1 => Stmt.seq (Stmt.act PyAction.query) (seqQueries n)

/-- `analyze_employee_salary_configs` of
`backend/analyze_contribution_bases.py` (lines 40-214): everything —
connect, `conn.cursor()`, the schema/sample/count/statistics queries
(`numQueries` of them, data dependent), the JSON schema dump, and the two
explicit `close` calls — sits inside one `try` whose `except` handler only
prints the error. There is no `finally`. -/
def analyzeProgram (numQueries : Nat) : Stmt :=
  Stmt.tryExcept
    (Stmt.seq (Stmt.act PyAction.connect)
      (Stmt.seq (Stmt.act PyAction.openCursor)
        (Stmt.seq (seqQueries numQueries)
          (Stmt.seq (Stmt.act PyAction.writeFile)
            (Stmt.seq (Stmt.act PyAction.closeCursor)
              (Stmt.act PyAction.closeConn))))))
    Stmt.skip

/-- `main()` of the three export scripts: `conn = get_db_connection()`
(which itself exits the process if the connect fails), then a `try` body —
period lookup in a `with`-cursor (a miss calls `sys.exit(1)`), the summary
statistics query in a `with`-cursor, and, unless `--stats-only` returned
early, the export function (its cursor use and CSV write wrapped in its own
`try/except` that returns `False`) — with `conn.close()` in the `finally`. -/
def exportMainProgram (statsOnly periodFound : Bool) : Stmt :=
  Stmt.seq (Stmt.act PyAction.connect)
    (Stmt.tryFinally
      (Stmt.seq
        (Stmt.seq (withCursor (Stmt.act PyAction.query))
          (if periodFound then Stmt.skip else Stmt.exitStmt))
        (if statsOnly then withCursor (Stmt.act PyAction.query)
         else Stmt.seq (withCursor (Stmt.act PyAction.query))
            (Stmt.tryExcept
              (withCursor (Stmt.seq (Stmt.act PyAction.query)
                (Stmt.act PyAction.writeFile)))
              Stmt.skip)))
      (Stmt.act PyAction.closeConn))

/-! ## Auxiliary predicates for the pruning claims -/

/-- The spec's cell predicate: the value is SQL NULL or numerically zero. -/
def isNullOrZero : Value → Bool
  | Value.null => true
  | Value.num q => decide (q = 0)
  | _ => false

/-- A cell that can appear in a numeric column under the row invariant. -/
def isNumOrNull : Value → Bool
  | Value.null => true
  | Value.num _ => true
  | _ => false

/-- Well-typedness of the rows at the numeric columns: a numeric-typed
column holds only null or numeric cells. -/
def NumericWellTyped (desc : List ColDesc) (rows : List Row) : Prop :=
  ∀ d ∈ desc, d.typeOid = 1700 → ∀ r ∈ rows, isNumOrNull (getField r d.name) = true

instance (desc : List ColDesc) (rows : List Row) :
    Decidable (NumericWellTyped desc rows) := by
  unfold NumericWellTyped
  infer_instance

/-- Membership characterization of the pruning pass with the flag off: a
field survives iff it is a column name and, whenever it is the name of a
numeric column, some row holds a non-null non-zero value in it. -/
theorem mem_pruneFields_false_iff (desc : List ColDesc) (rows : List Row) (f : String) :
    f ∈ pruneFields desc rows false ↔
      f ∈ desc.map ColDesc.name ∧
        (f ∈ (desc.filter (fun d => d.typeOid == 1700)).map ColDesc.name →
          has_non_zero rows f = true) := by
  simp only [pruneFields, if_neg (Bool.false_ne_true), List.mem_filter,
    List.elem_eq_mem, Bool.not_eq_true', decide_eq_false_iff_not, List.mem_filter,
    Bool.not_eq_true]
  constructor
  · rintro ⟨hmem, hnd⟩
    refine ⟨hmem, fun hnum => ?_⟩
    by_contra hnz
    exact hnd ⟨hnum, by simpa using hnz⟩
  · rintro ⟨hmem, himp⟩
    refine ⟨hmem, fun hdrop => ?_⟩
    rcases hdrop with ⟨hnum, hnz⟩
    rw [himp hnum] at hnz
    cases hnz

/-- With unique column names, a column's name is among the numeric field
names iff the column itself is numeric. -/
theorem mem_numericNames_iff (desc : List ColDesc) (d : ColDesc) (hd : d ∈ desc)
    (hnodup : (desc.map ColDesc.name).Nodup) :
    d.name ∈ (desc.filter (fun c => c.typeOid == 1700)).map ColDesc.name ↔
      d.typeOid = 1700 := by
  constructor
  · rintro h
    rcases List.mem_map.1 h with ⟨d', hd', hname⟩
    rcases List.mem_filter.1 hd' with ⟨hd'mem, htype⟩
    have : d' = d := List.inj_on_of_nodup_map hnodup hd'mem hd hname
    subst this
    simpa using htype
  · intro h
    exact List.mem_map.2 ⟨d, List.mem_filter.2 ⟨hd, by simp [h]⟩, rfl⟩

/-- Under well-typedness, the pruning loop's test is the negation of the
spec's null-or-zero predicate. -/
theorem floatNeZero_eq_not_isNullOrZero (v : Value) (hv : isNumOrNull v = true) :
    floatNeZero v = !(isNullOrZero v) := by
  cases v <;> simp_all [floatNeZero, isNullOrZero, isNumOrNull]

/-- C1: for every result set pruned with `includeZeroColumns = false`, a
numeric-typed column is dropped iff in every fetched row its value is null
or numerically equal to zero, and every non-numeric column is retained
regardless of its contents. -/
theorem numeric_column_pruning_correct
    (desc : List ColDesc) (rows : List Row) (d : ColDesc)
    (hd : d ∈ desc)
    (hnodup : (desc.map ColDesc.name).Nodup)
    (hwt : NumericWellTyped desc rows) :
    (d.typeOid = 1700 →
      (d.name ∉ pruneFields desc rows false ↔
        ∀ r ∈ rows, isNullOrZero (getField r d.name) = true))
    ∧ (d.typeOid ≠ 1700 → d.name ∈ pruneFields desc rows false) := by
  have hmem : d.name ∈ desc.map ColDesc.name := List.mem_map.2 ⟨d, hd, rfl⟩
  constructor
  · intro h1700
    rw [mem_pruneFields_false_iff]
    have hnum := (mem_numericNames_iff desc d hd hnodup).2 h1700
    constructor
    · intro hnotin r hr
      by_contra hnz
      apply hnotin
      refine ⟨hmem, fun _ => ?_⟩
      refine List.any_eq_true.2 ⟨r, hr, ?_⟩
      rw [floatNeZero_eq_not_isNullOrZero _ (hwt d hd h1700 r hr)]
      simpa using hnz
    · intro hall hin
      rcases hin with ⟨-, himp⟩
      rcases List.any_eq_true.1 (himp hnum) with ⟨r, hr, hnz⟩
      rw [floatNeZero_eq_not_isNullOrZero _ (hwt d hd h1700 r hr)] at hnz
      rw [hall r hr] at hnz
      cases hnz
  · intro hnot1700
    rw [mem_pruneFields_false_iff]
    refine ⟨hmem, fun hnum => ?_⟩
    exact absurd ((mem_numericNames_iff desc d hd hnodup).1 hnum) hnot1700

/-- A concrete two-column result set used to instantiate the hypotheses of
the pruning theorems. -/
def demoDesc : List ColDesc := [⟨"基本工资", 1700⟩, ⟨"姓名", 25⟩]

/-- Two concrete rows over `demoDesc`, the numeric column holding one
non-zero value. -/
def demoRows : List Row :=
  [[("基本工资", Value.num 5), ("姓名", Value.str "甲")],
   [("基本工资", Value.num 0), ("姓名", Value.str "乙")]]

/-- Witness for C1 at a concrete result set: the numeric column holding a
non-zero value is retained. -/
theorem numeric_column_pruning_correct_witness :
    "基本工资" ∈ pruneFields demoDesc demoRows false := by
  have h := (numeric_column_pruning_correct demoDesc demoRows ⟨"基本工资", 1700⟩
    (by decide) (by decide) (by decide)).1 rfl
  by_contra hnot
  have := h.1 hnot [("基本工资", Value.num 5), ("姓名", Value.str "甲")] (by decide)
  simp [getField, isNullOrZero] at this

/-- C2 counterexample: on a result set with zero rows, the pruning pass with
the flag off does not retain a numeric column — it drops it (vacuously no
row has a non-zero value), contrary to the claim that every numeric column
is retained. -/
theorem pruning_empty_retains_counterexample :
    "社保缴费基数" ∉ pruneFields [⟨"社保缴费基数", 1700⟩] [] false := by
  decide

/-- C2 amended: on an empty result set the exporter returns failure before
the pruning pass runs (no columns are emitted at all), and the pruning
logic itself, applied to zero rows, drops every numeric column rather than
retaining it. -/
theorem pruning_empty_resultset_behaviour
    (desc : List ColDesc) (include_zero_fields : Bool) :
    export_payroll_details desc [] include_zero_fields = none
    ∧ ∀ d ∈ desc, d.typeOid = 1700 → d.name ∉ pruneFields desc [] false := by
  constructor
  · simp [export_payroll_details]
  · intro d hd h1700 hin
    rcases (mem_pruneFields_false_iff desc [] d.name).1 hin with ⟨-, himp⟩
    have hnum : d.name ∈ (desc.filter (fun c => c.typeOid == 1700)).map ColDesc.name :=
      List.mem_map.2 ⟨d, List.mem_filter.2 ⟨hd, by simp [h1700]⟩, rfl⟩
    have := himp hnum
    simp [has_non_zero] at this

/-- Witness for the amended C2 at a concrete result set. -/
theorem pruning_empty_resultset_behaviour_witness :
    export_payroll_details demoDesc [] false = none
    ∧ "基本工资" ∉ pruneFields demoDesc [] false :=
  ⟨(pruning_empty_resultset_behaviour demoDesc false).1,
   (pruning_empty_resultset_behaviour demoDesc false).2 ⟨"基本工资", 1700⟩
     (by decide) rfl⟩

/-- C5: the pruned column list is always a subsequence of the input column
list (the original relative order is preserved), and with
`includeZeroColumns = true` it is exactly the input list, unchanged. -/
theorem pruning_returns_subsequence
    (desc : List ColDesc) (rows : List Row) (include_zero_fields : Bool) :
    (pruneFields desc rows include_zero_fields).Sublist (desc.map ColDesc.name)
    ∧ pruneFields desc rows true = desc.map ColDesc.name := by
  constructor
  · cases include_zero_fields
    · simp only [pruneFields, if_neg (Bool.false_ne_true)]
      exact List.filter_sublist (desc.map ColDesc.name)
    · simp [pruneFields]
  · simp [pruneFields]

/-- C3 counterexample: the classification is not total. The name
`"个人绩效"` is in no exact-match set, contains the earning keyword
`"绩效"`, and contains the exclusion keyword `"个人"`; the inner guard of
the earning-keyword branch fails and, having no `else`, appends the field
to no bucket — the name receives none of the four labels. -/
theorem classification_total_counterexample : classifyField "个人绩效" = none := by
  decide

/-- C3 amended: the classifier is a pure function — deterministic, and
assigning at most one label — but it is not total: a name yields no label
exactly when it is outside the three exact-match sets, contains an earning
keyword and also contains an exclusion keyword; and it defaults to `other`
exactly when it matches no exact set and no keyword rule. -/
theorem classification_partiality_characterized (field : String) :
    (classifyField field = none ↔
      (basicFieldsList.contains field = false ∧
       earningExactList.contains field = false ∧
       deductionExactList.contains field = false ∧
       earningKeywords.any (fun kw => strContains field kw) = true ∧
       exclusionKeywords.any (fun kw => strContains field kw) = true))
    ∧ (classifyField field = some FieldClass.other ↔
      (basicFieldsList.contains field = false ∧
       earningExactList.contains field = false ∧
       deductionExactList.contains field = false ∧
       earningKeywords.any (fun kw => strContains field kw) = false ∧
       deductionKeywords.any (fun kw => strContains field kw) = false)) := by
  unfold classifyField
  constructor
  · split_ifs with h1 h2 h3 h4 h5 <;>
      try simp_all [exclusionKeywords, Bool.and_eq_true, Bool.not_eq_true',
        Bool.not_eq_false, Bool.not_eq_true]
    cases hk : strContains field "扣" <;>
      cases hg : strContains field "个人" <;>
      cases hu : strContains field "单位" <;> simp_all
  · split_ifs with h1 h2 h3 h4 h5 <;>
      simp_all [exclusionKeywords, Bool.and_eq_true, Bool.not_eq_true',
        Bool.not_eq_false, Bool.not_eq_true]

/-- C4 counterexample: `"绩效扣款"` is in no exact-match set and contains
the earning keyword `"绩效"`, the deduction keyword `"扣"` and the exclusion
keyword `"扣"`. The claim says rule (b) classifies it as a deduction; the
code takes the earning-keyword branch, whose failing inner guard appends
the name to no bucket. -/
theorem keyword_priority_counterexample :
    classifyField "绩效扣款" ≠ some FieldClass.deduction
    ∧ classifyField "绩效扣款" = none := by
  decide

/-- C4 amended: for a name outside the three exact-match sets the keyword
rules apply in this order: an earning keyword with no exclusion keyword
gives `earning`; an earning keyword together with an exclusion keyword
gives no label at all (the deduction rule is never reached); no earning
keyword but a deduction/tax keyword gives `deduction`; otherwise `other`. -/
theorem keyword_priority_rules (field : String)
    (h1 : basicFieldsList.contains field = false)
    (h2 : earningExactList.contains field = false)
    (h3 : deductionExactList.contains field = false) :
    (earningKeywords.any (fun kw => strContains field kw) = true →
      exclusionKeywords.any (fun kw => strContains field kw) = false →
      classifyField field = some FieldClass.earning)
    ∧ (earningKeywords.any (fun kw => strContains field kw) = true →
      exclusionKeywords.any (fun kw => strContains field kw) = true →
      classifyField field = none)
    ∧ (earningKeywords.any (fun kw => strContains field kw) = false →
      deductionKeywords.any (fun kw => strContains field kw) = true →
      classifyField field = some FieldClass.deduction)
    ∧ (earningKeywords.any (fun kw => strContains field kw) = false →
      deductionKeywords.any (fun kw => strContains field kw) = false →
      classifyField field = some FieldClass.other) := by
  unfold classifyField
  refine ⟨fun hkw hex => ?_, fun hkw hex => ?_, fun hkw hded => ?_, fun hkw hded => ?_⟩ <;>
    split_ifs with h1' h2' h3' h4' <;>
    simp_all [exclusionKeywords, Bool.and_eq_true, Bool.not_eq_true',
      Bool.not_eq_false, Bool.not_eq_true]

/-- Witness for the amended C4: `"值班补贴"` contains the earning keyword
`"补贴"` and no exclusion keyword, so it is classified as an earning item. -/
theorem keyword_priority_rules_witness :
    classifyField "值班补贴" = some FieldClass.earning :=
  (keyword_priority_rules "值班补贴" (by decide) (by decide) (by decide)).1
    (by decide) (by decide)

/-- C6 counterexample: a timestamp value in a column outside the four
configured timestamp names — here `"入职日期"` — is emitted by the
payroll-details exporter with `strftime('%Y-%m-%d')`, i.e. date-only, not
with an appended time-of-day component as the claim states. -/
theorem value_normalization_counterexample :
    emitCellPD "入职日期" (Value.timestamp 2024 3 1 12 30 45) = "2024-03-01"
    ∧ "2024-03-01" ≠ formatDateTime 2024 3 1 12 30 45 := by
  constructor
  · rfl
  · decide

/-- C6 amended: in the payroll-details exporter a null cell is emitted as
the empty string, a date-only value as `YYYY-MM-DD`, and a timestamp value
with the appended time-of-day component only when the column is one of the
four configured timestamp names — every other timestamp is emitted
date-only; the contribution-base exporter emits every timestamp date-only
(even for the configured names) and nulls as the empty string. -/
theorem value_normalization_rules (field : String) (y m d hh mi ss : Nat) :
    emitCellPD field Value.null = ""
    ∧ emitCellPD field (Value.date y m d) = formatDate y m d
    ∧ emitCellPD field (Value.timestamp y m d hh mi ss) =
        (if field ∈ timestampFields then formatDateTime y m d hh mi ss
         else formatDate y m d)
    ∧ emitCellCB Value.null = ""
    ∧ emitCellCB (Value.date y m d) = formatDate y m d
    ∧ emitCellCB (Value.timestamp y m d hh mi ss) = formatDate y m d := by
  refine ⟨rfl, rfl, ?_, rfl, rfl, rfl⟩
  simp [emitCellPD, List.elem_eq_mem]

/-- C7: for a run whose period argument is valid and resolves to a period
but whose export query returns zero rows, the run reports failure — exit
code 1 — and creates no CSV file. -/
theorem empty_result_fails_no_file
    (table : List PeriodRec) (period_str : String) (desc : List ColDesc)
    (rowsOf : PeriodRec → List Row) (include_zero_fields : Bool) (p : PeriodRec)
    (hp : get_payroll_period_info table period_str = some p)
    (hrows : rowsOf p = []) :
    mainAfterValidation table period_str desc rowsOf false include_zero_fields =
      ⟨1, none⟩ := by
  unfold mainAfterValidation
  rw [hp]
  simp [hrows, export_payroll_details]

/-- A one-period table whose name the sliced argument `2025-06` matches. -/
def demoPeriods : List PeriodRec := [⟨7, "2025年06月", 100⟩]

/-- Witness for C7 at a concrete period table and an empty detail query. -/
theorem empty_result_fails_no_file_witness :
    mainAfterValidation demoPeriods "2025-06" demoDesc (fun _ => []) false false =
      ⟨1, none⟩ :=
  empty_result_fails_no_file demoPeriods "2025-06" demoDesc (fun _ => []) false
    ⟨7, "2025年06月", 100⟩ (by decide) rfl

/-- C8: an exporter writes either nothing at all (exactly when the query
returned zero rows, so a failed run leaves no file) or the complete CSV:
the header of the retained columns followed by one emitted line per fetched
row — the file contents are a function of the full result set and the
final column set only. -/
theorem no_partial_file
    (desc : List ColDesc) (rows : List Row) (include_zero_fields : Bool) :
    (export_payroll_details desc rows include_zero_fields = none ↔ rows = [])
    ∧ (∀ out, export_payroll_details desc rows include_zero_fields = some out →
        out.length = rows.length + 1
        ∧ out = pruneFields desc rows include_zero_fields ::
            rows.map (fun r => (pruneFields desc rows include_zero_fields).map
              (fun f => emitCellPD f (getField r f))))
    ∧ (export_contribution_base desc rows = none ↔ rows = [])
    ∧ (∀ out, export_contribution_base desc rows = some out →
        out.length = rows.length + 1) := by
  unfold export_payroll_details export_contribution_base
  rcases rows with - | ⟨r, rs⟩ <;> simp

/-- Witness for C8 at a concrete result set: the written file is the header
plus one line per row. -/
theorem no_partial_file_witness :
    export_payroll_details demoDesc demoRows false =
      some [["基本工资", "姓名"], ["5", "甲"], ["0", "乙"]]
    ∧ ([["基本工资", "姓名"], ["5", "甲"], ["0", "乙"]] : List (List String)).length
        = demoRows.length + 1 :=
  ⟨by decide, ((no_partial_file demoDesc demoRows false).2.1
    [["基本工资", "姓名"], ["5", "甲"], ["0", "乙"]] (by decide)).1⟩

/-- C10: the period argument is sliced into the `YYYY年MM月` name; the
lookup matches exactly the period records containing that name as a
substring; a successful lookup returns a matching record with the latest
`start_date`; a failed lookup returns no record, upon which the run exits
with code 1 and writes nothing. -/
theorem period_resolution_correct (table : List PeriodRec) (period_str : String) :
    periodNameOf "2025-06" = "2025年06月"
    ∧ (get_payroll_period_info table period_str = none ↔
        ∀ r ∈ table, strContains r.name (periodNameOf period_str) = false)
    ∧ (∀ p, get_payroll_period_info table period_str = some p →
        p ∈ table
        ∧ strContains p.name (periodNameOf period_str) = true
        ∧ ∀ r ∈ table, strContains r.name (periodNameOf period_str) = true →
            r.start_date ≤ p.start_date)
    ∧ (get_payroll_period_info table period_str = none →
        ∀ desc rowsOf statsOnly include_zero_fields,
          mainAfterValidation table period_str desc rowsOf
            statsOnly include_zero_fields = ⟨1, none⟩) := by
  refine ⟨by decide, ?_, ?_, ?_⟩
  · rw [get_payroll_period_info, List.argmax_eq_none, List.filter_eq_nil_iff]
    simp
  · intro p hp
    have hp' : p ∈ (table.filter
        (fun r => strContains r.name (periodNameOf period_str))).argmax
        (fun r => r.start_date) := Option.mem_def.2 hp
    have hmem := List.argmax_mem hp'
    rcases List.mem_filter.1 hmem with ⟨htab, hmatch⟩
    refine ⟨htab, hmatch, fun r hr hrmatch => ?_⟩
    exact List.le_of_mem_argmax (List.mem_filter.2 ⟨hr, hrmatch⟩) hp'
  · intro hnone desc rowsOf statsOnly include_zero_fields
    unfold mainAfterValidation
    rw [hnone]

/-- A two-period table in which both names contain the sliced argument and
the second has the later start date. -/
def demoPeriods2 : List PeriodRec :=
  [⟨1, "2025年06月", 100⟩, ⟨2, "2025年06月补发", 200⟩]

/-- Witness for C10: on `demoPeriods2` the lookup picks the record with the
later start date, which matches and dominates the other matching record. -/
theorem period_resolution_correct_witness :
    (⟨2, "2025年06月补发", 200⟩ : PeriodRec) ∈ demoPeriods2
    ∧ strContains "2025年06月补发" (periodNameOf "2025-06") = true
    ∧ (⟨1, "2025年06月", 100⟩ : PeriodRec).start_date ≤
        (⟨2, "2025年06月补发", 200⟩ : PeriodRec).start_date := by
  have h := (period_resolution_correct demoPeriods2 "2025-06").2.2.1
    ⟨2, "2025年06月补发", 200⟩ (by decide)
  exact ⟨h.1, h.2.1, h.2.2 ⟨1, "2025年06月", 100⟩ (by decide) (by decide)⟩

/-! ## Resource-release theorems -/

/-- A `closeConn` action always leaves the connection closed, whatever the
failure budget (the `close` calls are infallible). -/
theorem execStmt_closeConn (st : ResState) (f : Option Nat) :
    ((execStmt (Stmt.act PyAction.closeConn) st f).1).connOpen = false := by
  rcases f with - | (- | n) <;> simp [execStmt, applyPyAction, fallible]

/-- A `closeCursor` action always leaves the cursor closed. -/
theorem execStmt_closeCursor (st : ResState) (f : Option Nat) :
    ((execStmt (Stmt.act PyAction.closeCursor) st f).1).cursorOpen = false := by
  rcases f with - | (- | n) <;> simp [execStmt, applyPyAction, fallible]

/-- `conn = connect(); try: body finally: conn.close()` ends with the
connection closed on every path: if the connect raises it was never opened,
and otherwise the `finally` closes it whether the body returned, raised or
called `sys.exit`. -/
theorem connect_tryFinally_close_connClosed (body : Stmt) (s : ResState)
    (f : Option Nat) (hs : s.connOpen = false) :
    ((execStmt (Stmt.seq (Stmt.act PyAction.connect)
        (Stmt.tryFinally body (Stmt.act PyAction.closeConn))) s f).1).connOpen
      = false := by
  have hfin : ∀ (s' : ResState) (f' : Option Nat),
      ((execStmt (Stmt.tryFinally body (Stmt.act PyAction.closeConn)) s' f').1).connOpen
        = false := by
    intro s' f'
    simp only [execStmt]
    rcases h : execStmt body s' f' with ⟨st, ctl⟩
    cases ctl
    · exact execStmt_closeConn st _
    · simpa using execStmt_closeConn st none
  rcases f with - | (- | n) <;>
    simp [execStmt, applyPyAction, fallible, hs, hfin] <;>
    (try (split <;> (try split) <;> simp))

/-- A `with conn.cursor()` block ends with the cursor closed whenever it
started closed: a failing acquisition leaves the state untouched, and
otherwise the block's exit handler closes the cursor whether the body
returned or raised. -/
theorem withCursor_cursorClosed (body : Stmt) (s : ResState) (f : Option Nat)
    (hs : s.cursorOpen = false) :
    ((execStmt (withCursor body) s f).1).cursorOpen = false := by
  have hfin : ∀ (s' : ResState) (f' : Option Nat),
      ((execStmt (Stmt.tryFinally body (Stmt.act PyAction.closeCursor)) s' f').1).cursorOpen
        = false := by
    intro s' f'
    simp only [execStmt]
    rcases h : execStmt body s' f' with ⟨st, ctl⟩
    cases ctl
    · exact execStmt_closeCursor st _
    · simpa using execStmt_closeCursor st none
  rcases f with - | (- | n) <;>
    simp [withCursor, execStmt, applyPyAction, fallible, hs, hfin] <;>
    (try (split <;> (try split) <;> simp))

/-- Statements whose execution never leaves a cursor open when none was
open before: primitive actions other than a bare cursor acquisition,
composed by sequencing, `try/finally` and `try/except`, and whole
`with conn.cursor()` blocks. -/
inductive CursorBalanced : Stmt → Prop where
  | act (a : PyAction) (h : a ≠ PyAction.openCursor) : CursorBalanced (Stmt.act a)
  | skip : CursorBalanced Stmt.skip
  | exitStmt : CursorBalanced Stmt.exitStmt
  | seq {s1 s2 : Stmt} (h1 : CursorBalanced s1) (h2 : CursorBalanced s2) :
      CursorBalanced (Stmt.seq s1 s2)
  | tryFinally {s1 s2 : Stmt} (h1 : CursorBalanced s1) (h2 : CursorBalanced s2) :
      CursorBalanced (Stmt.tryFinally s1 s2)
  | tryExcept {s1 s2 : Stmt} (h1 : CursorBalanced s1) (h2 : CursorBalanced s2) :
      CursorBalanced (Stmt.tryExcept s1 s2)
  | withC (body : Stmt) : CursorBalanced (withCursor body)

/-- A non-`openCursor` action preserves the cursor state. -/
theorem applyPyAction_cursor (s : ResState) (a : PyAction)
    (ha : a ≠ PyAction.openCursor) (hs : s.cursorOpen = false) :
    (applyPyAction s a).cursorOpen = false := by
  cases a <;> simp_all [applyPyAction]

/-- Executing a cursor-balanced statement from a state with no open cursor
ends with no open cursor, on every path. -/
theorem cursorBalanced_execStmt {st : Stmt} (hb : CursorBalanced st) :
    ∀ (s : ResState) (f : Option Nat), s.cursorOpen = false →
      ((execStmt st s f).1).cursorOpen = false := by
  induction hb with
  | act a ha =>
      intro s f hs
      rcases f with - | (- | n) <;>
        simp [execStmt, applyPyAction_cursor s a ha hs, fallible] <;>
        split <;> simp [hs, applyPyAction_cursor s a ha hs]
  | skip => intro s f hs; simpa [execStmt] using hs
  | exitStmt => intro s f hs; simpa [execStmt] using hs
  | seq h1 h2 ih1 ih2 =>
      intro s f hs
      simp only [execStmt]
      rcases h : execStmt _ s f with ⟨st1, ctl⟩
      have hst1 : st1.cursorOpen = false := by
        have := ih1 s f hs
        rw [h] at this
        exact this
      cases ctl
      · exact ih2 st1 _ hst1
      · simpa using hst1
  | tryFinally h1 h2 ih1 ih2 =>
      intro s f hs
      simp only [execStmt]
      rcases h : execStmt _ s f with ⟨st1, ctl⟩
      have hst1 : st1.cursorOpen = false := by
        have := ih1 s f hs
        rw [h] at this
        exact this
      cases ctl
      · exact ih2 st1 _ hst1
      · simpa using ih2 st1 none hst1
  | tryExcept h1 h2 ih1 ih2 =>
      intro s f hs
      simp only [execStmt]
      rcases h : execStmt _ s f with ⟨st1, ctl⟩
      have hst1 : st1.cursorOpen = false := by
        have := ih1 s f hs
        rw [h] at this
        exact this
      cases ctl
      · simpa using hst1
      · exact ih2 st1 none hst1
  | withC body =>
      intro s f hs
      exact withCursor_cursorClosed body s f hs

/-- The `main` of each export script is cursor-balanced: every cursor it
uses lives in a `with` block. -/
theorem exportMainProgram_cursorBalanced (statsOnly periodFound : Bool) :
    CursorBalanced (exportMainProgram statsOnly periodFound) := by
  unfold exportMainProgram
  cases statsOnly <;> cases periodFound <;>
    simp only [Bool.false_eq_true, if_true, if_false, ite_true, ite_false] <;>
    repeat' first
      | exact CursorBalanced.withC _
      | exact CursorBalanced.skip
      | exact CursorBalanced.exitStmt
      | exact CursorBalanced.act _ (by decide)
      | apply CursorBalanced.seq
      | apply CursorBalanced.tryFinally
      | apply CursorBalanced.tryExcept

/-- With no injected failure a run of the analysis queries leaves the state
unchanged and succeeds. -/
theorem seqQueries_none (k : Nat) (s : ResState) :
    execStmt (seqQueries k) s none = (s, Ctl.ok none) := by
  induction k with
  | zero => simp [seqQueries, execStmt]
  | succ n ih => simp [seqQueries, execStmt, applyPyAction, fallible, ih]

/-- C9 counterexample: in `analyze_employee_salary_configs`, an exception
raised by the first analysis query — after the connection and the cursor
were opened — reaches the `except` handler, which only prints; the run ends
with both the connection and the cursor still open. -/
theorem connection_release_counterexample :
    ((execStmt (analyzeProgram 6) ⟨false, false⟩ (some 2)).1).connOpen = true
    ∧ ((execStmt (analyzeProgram 6) ⟨false, false⟩ (some 2)).1).cursorOpen = true := by
  decide

/-- C9 amended: the three export scripts close the connection on every exit
path (`conn.close()` in a `finally`) and every cursor via `with` blocks,
for any failure point; `analyze_contribution_bases.py` releases connection
and cursor only on the success path — a failure during the analysis (here:
during the first query) ends the run with both still open. -/
theorem connection_release_behaviour :
    (∀ (statsOnly periodFound : Bool) (f : Option Nat),
      ((execStmt (exportMainProgram statsOnly periodFound) ⟨false, false⟩ f).1).connOpen
          = false
      ∧ ((execStmt (exportMainProgram statsOnly periodFound) ⟨false, false⟩ f).1).cursorOpen
          = false)
    ∧ (∀ k, (execStmt (analyzeProgram k) ⟨false, false⟩ none).1 = ⟨false, false⟩)
    ∧ (∀ k, ((execStmt (analyzeProgram k) ⟨false, false⟩ (some 2)).1).connOpen = true) := by
  refine ⟨fun statsOnly periodFound f => ⟨?_, ?_⟩, fun k => ?_, fun k => ?_⟩
  · exact connect_tryFinally_close_connClosed _ ⟨false, false⟩ f rfl
  · exact cursorBalanced_execStmt
      (exportMainProgram_cursorBalanced statsOnly periodFound) ⟨false, false⟩ f rfl
  · simp [analyzeProgram, execStmt, applyPyAction, fallible, seqQueries_none]
  · cases k with
    | zero => decide
    | succ n =>
        simp [analyzeProgram, seqQueries, execStmt, applyPyAction, fallible]
